import Mathlib

/-!
Verification of the transit-lightcurve generation library
(`src/include/Model.h`, `src/include/GenerateModel.h`).

The repository ships only the headers: the `Model` parameter structure and
the declaration of `GenerateSynthetic`.  The body of `GenerateSynthetic`
and its helpers is not part of the sources, so the computation is
modelled from the specification (orbital geometry, limb-darkened
intensity, the Mandel & Agol small-planet occultation formula, and the
orchestrating loop), with `double` values idealised as real numbers.
-/

/-- The model parameter record, from `src/include/Model.h`.  Field names
and order follow the C++ struct; `double` fields are idealised as `ℝ`. -/
structure Model where
  id : Int
  name : String
  submodel_id : Int
  period : ℝ
  epoch : ℝ
  a : ℝ
  i : ℝ
  rs : ℝ
  rp : ℝ
  mstar : ℝ
  c1 : ℝ
  c2 : ℝ
  c3 : ℝ
  c4 : ℝ
  teff : ℝ

/-- Modelled from the spec: unit-conversion constant missing from `src/`
(§6 treats it as an external known constant), one astronomical unit in
metres. -/
def AU : ℝ := 149597870700

/-- Modelled from the spec: unit-conversion constant missing from `src/`
(§6), one solar radius in metres. -/
def rSun : ℝ := 695700000

/-- Modelled from the spec: unit-conversion constant missing from `src/`
(§6), one Jupiter radius in metres. -/
def rJup : ℝ := 71492000

/-- Modelled from the spec: the OrbitGeometry conversion of the orbital
separation to stellar radii, `a_over_rs = separation / stellarRadius`
after both are expressed in metres (§4.1); the implementation is missing
from `src/`. -/
noncomputable def aOverRs (m : Model) : ℝ := m.a * AU / (m.rs * rSun)

/-- Modelled from the spec: the normalised planet radius
`p = planetRadius_in_stellarRadii_units` (§4.1); the implementation is
missing from `src/`. -/
noncomputable def pOf (m : Model) : ℝ := m.rp * rJup / (m.rs * rSun)

/-- Modelled from the spec: the inclination converted from degrees to
radians (§6); the implementation is missing from `src/`. -/
noncomputable def inclRad (m : Model) : ℝ := m.i * Real.pi / 180

/-- Modelled from the spec: the orbital phase
`((time - epoch) / period) mod 1`, mapped to the signed interval
`[-1/2, 1/2)` nearest mid-transit (§4.1); the implementation is missing
from `src/`. -/
noncomputable def phaseOf (m : Model) (t : ℝ) : ℝ :=
  Int.fract ((t - m.epoch) / m.period + 1 / 2) - 1 / 2

/-- Modelled from the spec: the normalised projected separation
`z = sqrt((a_over_rs*sin(2π·phase))² + (a_over_rs*cos(i))²)` (§4.1); the
implementation is missing from `src/`. -/
noncomputable def zOf (m : Model) (t : ℝ) : ℝ :=
  Real.sqrt ((aOverRs m * Real.sin (2 * Real.pi * phaseOf m t)) ^ 2
    + (aOverRs m * Real.cos (inclRad m)) ^ 2)

/-- The derived zeroth limb-darkening coefficient
`c0 = 1 - c1 - c2 - c3 - c4`, documented in `src/include/Model.h`. -/
def c0 (m : Model) : ℝ := 1 - m.c1 - m.c2 - m.c3 - m.c4

/-- Modelled from the spec: the disk-integrated normalisation constant
`Ω` derived from `c0..c4` (§4.3); the exact form is missing from `src/`
and §9 defers it to the cited Mandel & Agol (2002) reference,
`Ω = Σ cₙ/(n+4)` for `n = 0..4`. -/
noncomputable def OmegaOf (m : Model) : ℝ :=
  c0 m / 4 + m.c1 / 5 + m.c2 / 6 + m.c3 / 7 + m.c4 / 8

/-- The auxiliary quantity `w = 1 - (z-p)²`, i.e. `1 - a` with
`a = (z-p)²` the inner boundary of the running intensity integral. -/
noncomputable def ldw (m : Model) (z : ℝ) : ℝ := 1 - (z - pOf m) ^ 2

/-- Modelled from the spec: the LimbDarkenedIntensity weighting `I*(z)`
(§4.2), missing from `src/`; the header documents it as the running
integral `(1-a)⁻¹ ∫ I(r) 2r dr` from `z-p` to `1` with `a = (z-p)²`, of
the four-coefficient law `I(r) = 1 - Σ cₖ(1-μ^(k/2))`, `μ = sqrt(1-r²)`.
In closed form, with `w = 1-a`:
`I*(z) = 1 - (4/5)c₁w^(1/4) - (4/6)c₂w^(1/2) - (4/7)c₃w^(3/4) - (4/8)c₄w`. -/
noncomputable def Istar (m : Model) (z : ℝ) : ℝ :=
  1 - m.c1 * (4 / 5) * Real.sqrt (Real.sqrt (ldw m z))
    - m.c2 * (4 / 6) * Real.sqrt (ldw m z)
    - m.c3 * (4 / 7) * (Real.sqrt (ldw m z) * Real.sqrt (Real.sqrt (ldw m z)))
    - m.c4 * (4 / 8) * ldw m z

/-- Modelled from the spec: the clamp of the `arccos` argument to its
valid domain `[-1, 1]` (§4.3 and the numerical-domain recovery of §7);
the implementation is missing from `src/`. -/
noncomputable def clampUnit (x : ℝ) : ℝ := max (-1) (min 1 x)

/-- Modelled from the spec: the piecewise TransitFluxModel of §4.3,
missing from `src/`.  No overlap (`z ≥ 1+p`) gives `F = 1`; the regime
`|1-p| < z < 1+p` uses the Mandel & Agol small-planet expression with
the `arccos` argument and the square-root argument clamped to their
valid domains; full overlap (`z ≤ |1-p|`) uses the occulted area `πp²`
weighted by `I*` and normalised by `4Ω`. -/
noncomputable def transitFlux (p z istar omega : ℝ) : ℝ :=
  if 1 + p ≤ z then 1
  else if |1 - p| < z then
    1 - istar / (4 * omega) *
      (p ^ 2 * Real.arccos (clampUnit ((z - 1) / p))
        - (z - 1) * Real.sqrt (max 0 (p ^ 2 - (z - 1) ^ 2)))
  else 1 - istar * Real.pi * p ^ 2 / (4 * omega)

/-- Modelled from the spec: the flux as a function of the normalised
separation for a given model, `F(z) = flux(p, z, I*(z))` (§4.3, §4.4). -/
noncomputable def fluxOfZ (m : Model) (z : ℝ) : ℝ :=
  transitFlux (pOf m) z (Istar m z) (OmegaOf m)

/-- Modelled from the spec: the per-sample pipeline of §4.4,
OrbitGeometry → LimbDarkenedIntensity → TransitFluxModel, missing from
`src/`. -/
noncomputable def fluxAtTime (m : Model) (t : ℝ) : ℝ := fluxOfZ m (zOf m t)

/-- Modelled from the spec: the parameter validity check of §7 (period
greater than 0, stellar radius greater than 0, planet radius at least 0,
inclination in (0, 90], non-empty time sequence); the implementation is
missing from `src/`. -/
def validInput (jd : List ℝ) (m : Model) : Prop :=
  0 < m.period ∧ 0 < m.rs ∧ 0 ≤ m.rp ∧ 0 < m.i ∧ m.i ≤ 90 ∧ jd ≠ []

noncomputable instance (jd : List ℝ) (m : Model) : Decidable (validInput jd m) := by
  unfold validInput
  infer_instance

/-- Modelled from the spec: `GenerateSynthetic`, declared in
`src/include/GenerateModel.h` but with its body missing from `src/`;
§4.4 and §7 describe it as the orchestrator that fails fast on invalid
parameters and otherwise maps the per-sample computation over the input
times. -/
noncomputable def GenerateSynthetic (jd : List ℝ) (m : Model) :
    Except String (List ℝ) :=
  if validInput jd m then Except.ok (jd.map (fluxAtTime m))
  else Except.error "invalid parameter"

/-- A concrete model used by the witnesses: parameters chosen so that
`aOverRs = 2` and `p = 1/2` exactly (separation `2·rSun` expressed in
AU, planet radius `rSun/2` expressed in Jupiter radii), edge-on
inclination, uniform disk. -/
noncomputable def W1 : Model :=
  { id := 1, name := "witness", submodel_id := 0,
    period := 1, epoch := 0, a := 13914000 / 1495978707, i := 90,
    rs := 1, rp := 869625 / 178730, mstar := 1,
    c1 := 0, c2 := 0, c3 := 0, c4 := 0, teff := 5000 }

/-- The same physical system as `W1` but with a zero period, an invalid
parameter per §7. -/
noncomputable def W0 : Model := { W1 with period := 0 }

/-- The same physical system as `W1` but with different bookkeeping and
auxiliary fields (`id`, `name`, `submodel_id`, `mstar`, `teff`). -/
noncomputable def W1b : Model :=
  { W1 with id := 42, name := "other", submodel_id := 7, mstar := 99, teff := 123 }

/-- Modelled from the spec: one call through the C++ signature
`std::vector<double> GenerateSynthetic(const std::vector<double> &jd, const Model &m)`
of `src/include/GenerateModel.h` — the returned fluxes together with the
model as the callee leaves it (`const`, so unchanged). -/
noncomputable def generateSyntheticCall (jd : List ℝ) (m : Model) :
    Except String (List ℝ) × Model :=
  (GenerateSynthetic jd m, m)

lemma aOverRs_W1 : aOverRs W1 = 2 := by
  norm_num [aOverRs, W1, AU, rSun]

lemma pOf_W1 : pOf W1 = 1 / 2 := by
  norm_num [pOf, W1, rJup, rSun]

lemma inclRad_W1 : inclRad W1 = Real.pi / 2 := by
  show (90 : ℝ) * Real.pi / 180 = Real.pi / 2
  ring

lemma phaseOf_W1_t12 : phaseOf W1 (1 / 12) = 1 / 12 := by
  unfold phaseOf
  rw [show ((1 : ℝ) / 12 - W1.epoch) / W1.period + 1 / 2 = 7 / 12 by
    show ((1 : ℝ) / 12 - 0) / 1 + 1 / 2 = 7 / 12; norm_num]
  rw [Int.fract_eq_self.2 ⟨by norm_num, by norm_num⟩]
  norm_num

lemma zOf_W1_t12 : zOf W1 (1 / 12) = 1 := by
  unfold zOf
  rw [phaseOf_W1_t12, aOverRs_W1, inclRad_W1, Real.cos_pi_div_two,
    show 2 * Real.pi * ((1 : ℝ) / 12) = Real.pi / 6 by ring, Real.sin_pi_div_six]
  rw [show ((2 : ℝ) * (1 / 2)) ^ 2 + (2 * 0) ^ 2 = 1 by norm_num, Real.sqrt_one]

lemma phaseOf_W1_t14 : phaseOf W1 (1 / 4) = 1 / 4 := by
  unfold phaseOf
  rw [show ((1 : ℝ) / 4 - W1.epoch) / W1.period + 1 / 2 = 3 / 4 by
    show ((1 : ℝ) / 4 - 0) / 1 + 1 / 2 = 3 / 4; norm_num]
  rw [Int.fract_eq_self.2 ⟨by norm_num, by norm_num⟩]
  norm_num

lemma zOf_W1_t14 : zOf W1 (1 / 4) = 2 := by
  unfold zOf
  rw [phaseOf_W1_t14, aOverRs_W1, inclRad_W1, Real.cos_pi_div_two,
    show 2 * Real.pi * ((1 : ℝ) / 4) = Real.pi / 2 by ring, Real.sin_pi_div_two]
  rw [show ((2 : ℝ) * 1) ^ 2 + (2 * 0) ^ 2 = 2 ^ 2 by norm_num,
    Real.sqrt_sq (by norm_num : (0 : ℝ) ≤ 2)]

lemma validInput_W1 (jd : List ℝ) (h : jd ≠ []) : validInput jd W1 := by
  refine ⟨?_, ?_, ?_, ?_, ?_, h⟩ <;> norm_num [W1]

lemma transitFlux_noOverlap (p z istar omega : ℝ) (hz : 1 + p ≤ z) :
    transitFlux p z istar omega = 1 := by
  unfold transitFlux
  rw [if_pos hz]

lemma transitFlux_smallPlanet (p z istar omega : ℝ) (h1 : |1 - p| < z)
    (h2 : z < 1 + p) :
    transitFlux p z istar omega =
      1 - istar / (4 * omega) * (p ^ 2 * Real.arccos ((z - 1) / p)
        - (z - 1) * Real.sqrt (p ^ 2 - (z - 1) ^ 2)) := by
  have hp : 0 < p := by
    have := le_abs_self (1 - p)
    linarith
  have hzl : 1 - p < z := lt_of_le_of_lt (le_abs_self _) h1
  have ha1 : -1 ≤ (z - 1) / p := by
    rw [le_div_iff₀ hp]
    linarith
  have ha2 : (z - 1) / p ≤ 1 := by
    rw [div_le_one hp]
    linarith
  have hclamp : clampUnit ((z - 1) / p) = (z - 1) / p := by
    unfold clampUnit
    rw [min_eq_right ha2, max_eq_right ha1]
  have hsq : (z - 1) ^ 2 ≤ p ^ 2 := sq_le_sq' (by linarith) (by linarith)
  have hmax : max 0 (p ^ 2 - (z - 1) ^ 2) = p ^ 2 - (z - 1) ^ 2 :=
    max_eq_right (by linarith)
  unfold transitFlux
  rw [if_neg (not_le.2 h2), if_pos h1, hclamp, hmax]

lemma generateSynthetic_ok (jd : List ℝ) (m : Model) (hv : validInput jd m) :
    GenerateSynthetic jd m = Except.ok (jd.map (fluxAtTime m)) := by
  unfold GenerateSynthetic
  rw [if_pos hv]

lemma generateSynthetic_ok_elim {jd : List ℝ} {m : Model} {fs : List ℝ}
    (hv : validInput jd m) (h : GenerateSynthetic jd m = Except.ok fs) :
    fs = jd.map (fluxAtTime m) := by
  rw [generateSynthetic_ok jd m hv] at h
  injection h with h
  exact h.symm

lemma getD_map_fluxAtTime (m : Model) (jd : List ℝ) (k : ℕ)
    (hk : k < jd.length) :
    (jd.map (fluxAtTime m)).getD k 0 = fluxAtTime m (jd.getD k 0) := by
  rw [List.getD_eq_getElem _ _ (by simpa using hk),
    List.getD_eq_getElem _ _ hk, List.getElem_map]

lemma sin_two_pi_phase (m : Model) (t : ℝ) :
    Real.sin (2 * Real.pi * phaseOf m t) =
      Real.sin (2 * Real.pi * ((t - m.epoch) / m.period)) := by
  unfold phaseOf
  rw [show 2 * Real.pi * (Int.fract ((t - m.epoch) / m.period + 1 / 2) - 1 / 2)
      = 2 * Real.pi * ((t - m.epoch) / m.period)
        - (⌊(t - m.epoch) / m.period + 1 / 2⌋ : ℤ) * (2 * Real.pi) by
    rw [← Int.self_sub_floor]
    ring]
  exact Real.sin_sub_int_mul_two_pi _ _

lemma continuous_ldw (m : Model) : Continuous (ldw m) := by
  unfold ldw
  exact continuous_const.sub ((continuous_id.sub continuous_const).pow 2)

lemma continuous_Istar (m : Model) : Continuous (Istar m) := by
  have h := continuous_ldw m
  have hs : Continuous fun z => Real.sqrt (ldw m z) := Real.continuous_sqrt.comp h
  have hss : Continuous fun z => Real.sqrt (Real.sqrt (ldw m z)) :=
    Real.continuous_sqrt.comp hs
  unfold Istar
  exact (((continuous_const.sub (continuous_const.mul hss)).sub
    (continuous_const.mul hs)).sub
    (continuous_const.mul (hs.mul hss))).sub (continuous_const.mul h)

lemma continuous_fluxOfZ (m : Model) (hp0 : 0 < pOf m) (hp1 : pOf m < 1) :
    Continuous (fluxOfZ m) := by
  have hI := continuous_Istar m
  have hpart : Continuous fun z : ℝ =>
      1 - Istar m z / (4 * OmegaOf m) *
        ((pOf m) ^ 2 * Real.arccos (clampUnit ((z - 1) / pOf m))
          - (z - 1) * Real.sqrt (max 0 ((pOf m) ^ 2 - (z - 1) ^ 2))) := by
    have harg : Continuous fun z : ℝ => clampUnit ((z - 1) / pOf m) := by
      unfold clampUnit
      exact continuous_const.max (continuous_const.min
        ((continuous_id.sub continuous_const).div_const _))
    have hsqrtarg : Continuous fun z : ℝ =>
        Real.sqrt (max 0 ((pOf m) ^ 2 - (z - 1) ^ 2)) :=
      Real.continuous_sqrt.comp (continuous_const.max
        (continuous_const.sub ((continuous_id.sub continuous_const).pow 2)))
    exact continuous_const.sub ((hI.div_const _).mul
      ((continuous_const.mul (Real.continuous_arccos.comp harg)).sub
        ((continuous_id.sub continuous_const).mul hsqrtarg)))
  have hfull : Continuous fun z : ℝ =>
      1 - Istar m z * Real.pi * (pOf m) ^ 2 / (4 * OmegaOf m) :=
    continuous_const.sub
      (((hI.mul continuous_const).mul continuous_const).div_const _)
  have hinner : Continuous fun z : ℝ =>
      if |1 - pOf m| < z then
        1 - Istar m z / (4 * OmegaOf m) *
          ((pOf m) ^ 2 * Real.arccos (clampUnit ((z - 1) / pOf m))
            - (z - 1) * Real.sqrt (max 0 ((pOf m) ^ 2 - (z - 1) ^ 2)))
      else 1 - Istar m z * Real.pi * (pOf m) ^ 2 / (4 * OmegaOf m) := by
    refine Continuous.if ?_ hpart hfull
    intro a ha
    have ha' : a ∈ ({|1 - pOf m|} : Set ℝ) := by
      rw [← frontier_Ioi]
      exact ha
    have haa : a = |1 - pOf m| := ha'
    subst haa
    have habs : |1 - pOf m| = 1 - pOf m := abs_of_pos (by linarith)
    rw [habs]
    have hc : clampUnit ((1 - pOf m - 1) / pOf m) = -1 := by
      rw [show (1 - pOf m - 1) / pOf m = -1 by
        rw [show 1 - pOf m - 1 = -pOf m by ring, neg_div, div_self hp0.ne']]
      unfold clampUnit
      rw [min_eq_right (by norm_num), max_self]
    rw [hc, Real.arccos_neg_one,
      show (pOf m) ^ 2 - (1 - pOf m - 1) ^ 2 = 0 by ring, max_self, Real.sqrt_zero]
    ring
  have houter : Continuous fun z : ℝ =>
      if 1 + pOf m ≤ z then (1 : ℝ)
      else if |1 - pOf m| < z then
        1 - Istar m z / (4 * OmegaOf m) *
          ((pOf m) ^ 2 * Real.arccos (clampUnit ((z - 1) / pOf m))
            - (z - 1) * Real.sqrt (max 0 ((pOf m) ^ 2 - (z - 1) ^ 2)))
      else 1 - Istar m z * Real.pi * (pOf m) ^ 2 / (4 * OmegaOf m) := by
    refine Continuous.if ?_ continuous_const hinner
    intro a ha
    have ha' : a ∈ ({1 + pOf m} : Set ℝ) := by
      rw [← frontier_Ici]
      exact ha
    have haa : a = 1 + pOf m := ha'
    subst haa
    rw [if_pos (show |1 - pOf m| < 1 + pOf m by
      rw [abs_of_pos (by linarith)]
      linarith)]
    have hc : clampUnit ((1 + pOf m - 1) / pOf m) = 1 := by
      rw [show (1 + pOf m - 1) / pOf m = 1 by
        rw [show 1 + pOf m - 1 = pOf m by ring, div_self hp0.ne']]
      unfold clampUnit
      rw [min_self, max_eq_right (by norm_num)]
    rw [hc, Real.arccos_one,
      show (pOf m) ^ 2 - (1 + pOf m - 1) ^ 2 = 0 by ring, max_self, Real.sqrt_zero]
    ring
  show Continuous fun z => transitFlux (pOf m) z (Istar m z) (OmegaOf m)
  unfold transitFlux
  exact houter

/-- Claim C1: for every model and time sample falling in the
partial-overlap regime `|1-p| < z < 1+p`, the flux returned by
`GenerateSynthetic` for that sample equals the Mandel & Agol
small-planet expression
`F = 1 - (I*(z)/(4Ω))·(p²·arccos((z-1)/p) - (z-1)·sqrt(p²-(z-1)²))`,
with `arccos` applied only to `(z-1)/p` and the square-root term
subtracted outside the `arccos`. -/
theorem generateSynthetic_smallPlanet_formula (jd : List ℝ) (m : Model)
    (fs : List ℝ) (k : ℕ) (hv : validInput jd m)
    (hok : GenerateSynthetic jd m = Except.ok fs) (hk : k < jd.length)
    (h1 : |1 - pOf m| < zOf m (jd.getD k 0))
    (h2 : zOf m (jd.getD k 0) < 1 + pOf m) :
    fs.getD k 0 =
      1 - Istar m (zOf m (jd.getD k 0)) / (4 * OmegaOf m) *
        ((pOf m) ^ 2 * Real.arccos ((zOf m (jd.getD k 0) - 1) / pOf m)
          - (zOf m (jd.getD k 0) - 1)
            * Real.sqrt ((pOf m) ^ 2 - (zOf m (jd.getD k 0) - 1) ^ 2)) := by
  obtain rfl := generateSynthetic_ok_elim hv hok
  rw [getD_map_fluxAtTime m jd k hk]
  unfold fluxAtTime fluxOfZ
  exact transitFlux_smallPlanet _ _ _ _ h1 h2

theorem generateSynthetic_smallPlanet_formula_witness :
    ([(1 / 12 : ℝ)].map (fluxAtTime W1)).getD 0 0 =
      1 - Istar W1 (zOf W1 ([(1 / 12 : ℝ)].getD 0 0)) / (4 * OmegaOf W1) *
        ((pOf W1) ^ 2
            * Real.arccos ((zOf W1 ([(1 / 12 : ℝ)].getD 0 0) - 1) / pOf W1)
          - (zOf W1 ([(1 / 12 : ℝ)].getD 0 0) - 1)
            * Real.sqrt ((pOf W1) ^ 2
              - (zOf W1 ([(1 / 12 : ℝ)].getD 0 0) - 1) ^ 2)) := by
  have hv : validInput [(1 / 12 : ℝ)] W1 := validInput_W1 _ (by simp)
  have hz : zOf W1 ([(1 / 12 : ℝ)].getD 0 0) = 1 := by
    rw [show ([(1 / 12 : ℝ)].getD 0 0) = 1 / 12 from rfl, zOf_W1_t12]
  exact generateSynthetic_smallPlanet_formula [(1 / 12 : ℝ)] W1 _ 0 hv
    (generateSynthetic_ok _ _ hv) (by norm_num)
    (by rw [hz, pOf_W1, abs_of_pos] <;> norm_num)
    (by rw [hz, pOf_W1]; norm_num)

/-- Claim C2: for every valid model and every time sample whose
normalised separation satisfies `z ≥ 1+p`, the corresponding output
flux of `GenerateSynthetic` equals exactly `1` (and no noise term is
added). -/
theorem generateSynthetic_noOverlap_one (jd : List ℝ) (m : Model)
    (fs : List ℝ) (k : ℕ) (hv : validInput jd m)
    (hok : GenerateSynthetic jd m = Except.ok fs) (hk : k < jd.length)
    (hz : 1 + pOf m ≤ zOf m (jd.getD k 0)) :
    fs.getD k 0 = 1 := by
  obtain rfl := generateSynthetic_ok_elim hv hok
  rw [getD_map_fluxAtTime m jd k hk]
  unfold fluxAtTime fluxOfZ
  exact transitFlux_noOverlap _ _ _ _ hz

theorem generateSynthetic_noOverlap_one_witness :
    ([(1 / 4 : ℝ)].map (fluxAtTime W1)).getD 0 0 = 1 := by
  have hv : validInput [(1 / 4 : ℝ)] W1 := validInput_W1 _ (by simp)
  exact generateSynthetic_noOverlap_one [(1 / 4 : ℝ)] W1 _ 0 hv
    (generateSynthetic_ok _ _ hv) (by norm_num)
    (by rw [show ([(1 / 4 : ℝ)].getD 0 0) = 1 / 4 from rfl, zOf_W1_t14, pOf_W1]
        norm_num)

/-- Claim C3: for every valid model (normalised planet radius strictly
between 0 and 1, so that both boundaries exist), the flux as a function
of the normalised separation has no jump discontinuity at either regime
boundary: it is continuous at `z = 1-p` and at `z = 1+p`. -/
theorem fluxOfZ_continuousAt_regime_boundaries (m : Model)
    (hp0 : 0 < pOf m) (hp1 : pOf m < 1) :
    ContinuousAt (fluxOfZ m) (1 - pOf m) ∧
      ContinuousAt (fluxOfZ m) (1 + pOf m) :=
  ⟨(continuous_fluxOfZ m hp0 hp1).continuousAt,
    (continuous_fluxOfZ m hp0 hp1).continuousAt⟩

theorem fluxOfZ_continuousAt_regime_boundaries_witness :
    ContinuousAt (fluxOfZ W1) (1 - pOf W1) ∧
      ContinuousAt (fluxOfZ W1) (1 + pOf W1) :=
  fluxOfZ_continuousAt_regime_boundaries W1
    (by rw [pOf_W1]; norm_num) (by rw [pOf_W1]; norm_num)

/-- Claim C4: for every model and time, the normalised projected
separation used for the flux computation is
`z = sqrt((a_over_rs·sin(2π·phase))² + (a_over_rs·cos i)²)`, with
`a_over_rs` the orbital separation converted to stellar radii, `i` the
inclination converted to radians, and `phase = ((time-epoch)/period) mod 1`
mapped to the signed interval nearest mid-transit: `phase ∈ [-1/2, 1/2)`
and `(time-epoch)/period - phase` is an integer. -/
theorem zOf_eq_projected_separation (m : Model) (t : ℝ) :
    ∃ k : ℤ, (t - m.epoch) / m.period = (k : ℝ) + phaseOf m t ∧
      -(1 / 2) ≤ phaseOf m t ∧ phaseOf m t < 1 / 2 ∧
      aOverRs m = m.a * AU / (m.rs * rSun) ∧
      inclRad m = m.i * Real.pi / 180 ∧
      zOf m t = Real.sqrt ((aOverRs m * Real.sin (2 * Real.pi * phaseOf m t)) ^ 2
        + (aOverRs m * Real.cos (inclRad m)) ^ 2) := by
  refine ⟨⌊(t - m.epoch) / m.period + 1 / 2⌋, ?_, ?_, ?_, rfl, rfl, rfl⟩
  · unfold phaseOf
    rw [← Int.self_sub_floor]
    ring
  · unfold phaseOf
    have := Int.fract_nonneg ((t - m.epoch) / m.period + 1 / 2)
    linarith
  · unfold phaseOf
    have := Int.fract_lt_one ((t - m.epoch) / m.period + 1 / 2)
    linarith

/-- Claim C5: any input with an invalid parameter (nonpositive period —
in particular a zero period — nonpositive stellar radius, negative
planet radius, inclination outside (0, 90], or an empty time sequence)
makes `GenerateSynthetic` report an invalid-parameter error to the
caller and produce no output flux sequence. -/
theorem generateSynthetic_invalid_error (jd : List ℝ) (m : Model)
    (h : ¬ validInput jd m) :
    GenerateSynthetic jd m = Except.error "invalid parameter" := by
  unfold GenerateSynthetic
  rw [if_neg h]

theorem generateSynthetic_invalid_error_witness :
    GenerateSynthetic [(0 : ℝ)] W0 = Except.error "invalid parameter" :=
  generateSynthetic_invalid_error [(0 : ℝ)] W0
    (by norm_num [validInput, W0, W1])

/-- Claim C6: for every accepted input, the output flux sequence has
exactly the length of the input time sequence, and its k-th element is
the flux computed from the k-th input time (output order mirrors input
order, each sample computed independently). -/
theorem generateSynthetic_length_order (jd : List ℝ) (m : Model)
    (fs : List ℝ) (hv : validInput jd m)
    (hok : GenerateSynthetic jd m = Except.ok fs) :
    fs.length = jd.length ∧
      ∀ k, k < jd.length → fs.getD k 0 = fluxAtTime m (jd.getD k 0) := by
  obtain rfl := generateSynthetic_ok_elim hv hok
  exact ⟨List.length_map _ _, fun k hk => getD_map_fluxAtTime m jd k hk⟩

theorem generateSynthetic_length_order_witness :
    (([(3 : ℝ), 7].map (fluxAtTime W1)).length = ([(3 : ℝ), 7] : List ℝ).length)
      ∧ ([(3 : ℝ), 7].map (fluxAtTime W1)).getD 0 0
          = fluxAtTime W1 (([(3 : ℝ), 7] : List ℝ).getD 0 0) := by
  have hv : validInput [(3 : ℝ), 7] W1 := validInput_W1 _ (by simp)
  exact ⟨(generateSynthetic_length_order [(3 : ℝ), 7] W1 _ hv
      (generateSynthetic_ok _ _ hv)).1,
    (generateSynthetic_length_order [(3 : ℝ), 7] W1 _ hv
      (generateSynthetic_ok _ _ hv)).2 0 (by norm_num)⟩

/-- Claim C7: for every model (noise-free, circular orbit by
construction), the flux is symmetric in time about the transit epoch:
`flux(epoch - Δt) = flux(epoch + Δt)` for every offset `Δt`. -/
theorem fluxAtTime_symmetric_about_epoch (m : Model) (dt : ℝ) :
    fluxAtTime m (m.epoch - dt) = fluxAtTime m (m.epoch + dt) := by
  have hz : zOf m (m.epoch - dt) = zOf m (m.epoch + dt) := by
    unfold zOf
    rw [sin_two_pi_phase m (m.epoch - dt), sin_two_pi_phase m (m.epoch + dt),
      show m.epoch - dt - m.epoch = -dt by ring,
      show m.epoch + dt - m.epoch = dt by ring,
      show 2 * Real.pi * (-dt / m.period) = -(2 * Real.pi * (dt / m.period)) by
        ring,
      Real.sin_neg]
    ring_nf
  unfold fluxAtTime
  rw [hz]

/-- Claim C8: the `arccos` argument and the square-root argument of the
partial-overlap computation are clamped to their valid domains, so they
always lie in `[-1, 1]` and `[0, ∞)` respectively — a numerical domain
violation can never surface — and for `z` in the valid range
`|1-p| ≤ z ≤ 1+p` the clamping is the identity. -/
theorem clamped_args_in_domain (p z : ℝ) :
    (-1 ≤ clampUnit ((z - 1) / p) ∧ clampUnit ((z - 1) / p) ≤ 1 ∧
      0 ≤ max 0 (p ^ 2 - (z - 1) ^ 2)) ∧
    (|1 - p| ≤ z → z ≤ 1 + p →
      clampUnit ((z - 1) / p) = (z - 1) / p ∧
        max 0 (p ^ 2 - (z - 1) ^ 2) = p ^ 2 - (z - 1) ^ 2) := by
  constructor
  · exact ⟨le_max_left _ _, max_le (by norm_num) (min_le_left _ _),
      le_max_left _ _⟩
  · intro h1 h2
    have hp : 0 ≤ p := by
      have := le_abs_self (1 - p)
      linarith
    rcases eq_or_lt_of_le hp with hp0 | hp0
    · rw [← hp0] at h1 h2 ⊢
      have hz : z = 1 := by
        have h1' : (1 : ℝ) ≤ z := by simpa using h1
        linarith
      subst hz
      norm_num [clampUnit]
    · have hzl : 1 - p ≤ z := le_trans (le_abs_self _) h1
      refine ⟨?_, max_eq_right ?_⟩
      · unfold clampUnit
        rw [min_eq_right (by rw [div_le_one hp0]; linarith),
          max_eq_right (by rw [le_div_iff₀ hp0]; linarith)]
      · have hsq : (z - 1) ^ 2 ≤ p ^ 2 := sq_le_sq' (by linarith) (by linarith)
        linarith

theorem clamped_args_in_domain_witness :
    ((-1 ≤ clampUnit (((1 : ℝ) - 1) / (1 / 2)) ∧
        clampUnit (((1 : ℝ) - 1) / (1 / 2)) ≤ 1 ∧
        0 ≤ max 0 ((1 / 2 : ℝ) ^ 2 - ((1 : ℝ) - 1) ^ 2)) ∧
      (clampUnit (((1 : ℝ) - 1) / (1 / 2)) = ((1 : ℝ) - 1) / (1 / 2) ∧
        max 0 ((1 / 2 : ℝ) ^ 2 - ((1 : ℝ) - 1) ^ 2)
          = (1 / 2 : ℝ) ^ 2 - ((1 : ℝ) - 1) ^ 2)) :=
  ⟨(clamped_args_in_domain (1 / 2) 1).1,
    (clamped_args_in_domain (1 / 2) 1).2
      (by rw [show |(1 : ℝ) - 1 / 2| = 1 / 2 by rw [abs_of_pos] <;> norm_num]
          norm_num)
      (by norm_num)⟩

/-- Claim C9: two models that differ only in the bookkeeping and
auxiliary fields `id`, `name`, `submodel_id`, `mstar`, `teff` (all other
fields equal) produce identical flux sequences from `GenerateSynthetic`
on any time sequence: those fields are never read by the computation. -/
theorem generateSynthetic_ignores_bookkeeping (jd : List ℝ) (m1 m2 : Model)
    (hper : m1.period = m2.period) (hep : m1.epoch = m2.epoch)
    (ha : m1.a = m2.a) (hi : m1.i = m2.i) (hrs : m1.rs = m2.rs)
    (hrp : m1.rp = m2.rp) (hc1 : m1.c1 = m2.c1) (hc2 : m1.c2 = m2.c2)
    (hc3 : m1.c3 = m2.c3) (hc4 : m1.c4 = m2.c4) :
    GenerateSynthetic jd m1 = GenerateSynthetic jd m2 := by
  have hpOf : pOf m1 = pOf m2 := by
    unfold pOf
    rw [hrp, hrs]
  have haRs : aOverRs m1 = aOverRs m2 := by
    unfold aOverRs
    rw [ha, hrs]
  have hinc : inclRad m1 = inclRad m2 := by
    unfold inclRad
    rw [hi]
  have hphase : phaseOf m1 = phaseOf m2 := by
    funext t
    unfold phaseOf
    rw [hep, hper]
  have hzOf : zOf m1 = zOf m2 := by
    funext t
    unfold zOf
    rw [haRs, hinc, hphase]
  have hOm : OmegaOf m1 = OmegaOf m2 := by
    unfold OmegaOf c0
    rw [hc1, hc2, hc3, hc4]
  have hIs : Istar m1 = Istar m2 := by
    funext z
    unfold Istar ldw
    rw [hc1, hc2, hc3, hc4, hpOf]
  have hflux : fluxAtTime m1 = fluxAtTime m2 := by
    funext t
    unfold fluxAtTime fluxOfZ
    rw [hpOf, hIs, hOm, hzOf]
  have hvalid : validInput jd m1 ↔ validInput jd m2 := by
    unfold validInput
    rw [hper, hrs, hrp, hi]
  unfold GenerateSynthetic
  rw [hflux]
  by_cases hv : validInput jd m2
  · rw [if_pos (hvalid.2 hv), if_pos hv]
  · rw [if_neg (fun hh => hv (hvalid.1 hh)), if_neg hv]

theorem generateSynthetic_ignores_bookkeeping_witness :
    GenerateSynthetic [(1 / 12 : ℝ)] W1 = GenerateSynthetic [(1 / 12 : ℝ)] W1b :=
  generateSynthetic_ignores_bookkeeping [(1 / 12 : ℝ)] W1 W1b
    rfl rfl rfl rfl rfl rfl rfl rfl rfl rfl

/-- Claim C10: `GenerateSynthetic` is deterministic — its signature
takes only the time sequence and a `const` model, with no noise
parameter, so two calls with equal time sequences and equal models
return identical flux sequences — and a call leaves the model argument
unchanged. -/
theorem generateSynthetic_deterministic (jd1 jd2 : List ℝ) (m1 m2 : Model)
    (hjd : jd1 = jd2) (hm : m1 = m2) :
    generateSyntheticCall jd1 m1 = generateSyntheticCall jd2 m2 ∧
      (generateSyntheticCall jd1 m1).2 = m1 := by
  subst hjd
  subst hm
  exact ⟨rfl, rfl⟩

theorem generateSynthetic_deterministic_witness :
    generateSyntheticCall [(0 : ℝ)] W1 = generateSyntheticCall [(0 : ℝ)] W1 ∧
      (generateSyntheticCall [(0 : ℝ)] W1).2 = W1 :=
  generateSynthetic_deterministic [(0 : ℝ)] [(0 : ℝ)] W1 W1 rfl rfl
